import Mathlib

/-!
# Cable robot controller: verification of the command/control core

Shallow embedding of the browser-side `RobotController` (robot-controller.js),
the browser-side `WebSocketClient` (websocket-client.js) and the firmware
command loop (the Arduino sketch), with proofs of the spec's claims about
workspace validation, motion interpolation, the safety state machine, the
reconnect policy, command correlation and the message queue.

Real-valued JS numbers are embedded as `ℚ`.  The one quantity that is
irrational in general — the Euclidean distance computed by `Math.sqrt` in
`updatePosition` — is passed to the embedded function as an explicit
argument `dist`, constrained in every theorem by `0 ≤ dist` and
`dist ^ 2 = sqDist pos target`, which characterises it uniquely as the
square root the code computes.
-/

namespace CableRobot

/-- A 3-D position, the `{x, y, z}` records of the JS code and the
`Position` struct of the firmware. -/
structure Position where
  x : ℚ
  y : ℚ
  z : ℚ
deriving DecidableEq, Repr

/-- One axis of the workspace, `{min, max}` in the JS `this.workspace`. -/
structure AxisRange where
  lo : ℚ
  hi : ℚ
deriving DecidableEq, Repr

/-- The browser controller's `this.workspace`: per-axis bounds. -/
structure Workspace where
  wx : AxisRange
  wy : AxisRange
  wz : AxisRange
deriving DecidableEq, Repr

/-- The constructor default of `RobotController.workspace`:
x,y ∈ [-2.5, 2.5], z ∈ [0.5, 4.5]. -/
def defaultWorkspace : Workspace :=
  { wx := { lo := -(5/2), hi := 5/2 }
    wy := { lo := -(5/2), hi := 5/2 }
    wz := { lo := 1/2, hi := 9/2 } }

/-- `Math.max(min, Math.min(max, v))` — the componentwise clamp performed by
`RobotController.moveToPosition`. -/
def clampAxis (r : AxisRange) (v : ℚ) : ℚ :=
  max r.lo (min r.hi v)

/-- The three clamp lines of `RobotController.moveToPosition`. -/
def clampToWorkspace (w : Workspace) (x y z : ℚ) : Position :=
  { x := clampAxis w.wx x, y := clampAxis w.wy y, z := clampAxis w.wz z }

/-- Membership in the workspace box (`RobotController.isInWorkspace`). -/
def inWorkspace (w : Workspace) (x y z : ℚ) : Bool :=
  decide (w.wx.lo ≤ x) && decide (x ≤ w.wx.hi) &&
  decide (w.wy.lo ≤ y) && decide (y ≤ w.wy.hi) &&
  decide (w.wz.lo ≤ z) && decide (z ≤ w.wz.hi)

/-- Squared Euclidean distance, the `dx*dx + dy*dy + dz*dz` of
`updatePosition` before `Math.sqrt` is applied. -/
def sqDist (p q : Position) : ℚ :=
  (q.x - p.x) ^ 2 + (q.y - p.y) ^ 2 + (q.z - p.z) ^ 2

/-- The interpolation dead-band: the `0.01` in `if (distance > 0.01)`. -/
def tickEps : ℚ := 1/100

/-- The per-frame interval: the `0.016` in `this.speed * 0.016` (60 fps). -/
def frameDt : ℚ := 16/1000

/-- `RobotController.updatePosition`, one interpolation tick.  `dist` is the
value `Math.sqrt(dx*dx+dy*dy+dz*dz)` the code computes; theorems constrain
it by `0 ≤ dist ∧ dist ^ 2 = sqDist pos target`. -/
def updatePosition (pos target : Position) (speed dist : ℚ) : Position :=
  let perFrame := speed * frameDt
  if tickEps < dist then
    let moveDist := min perFrame dist
    let frac := moveDist / dist
    { x := pos.x + (target.x - pos.x) * frac
      y := pos.y + (target.y - pos.y) * frac
      z := pos.z + (target.z - pos.z) * frac }
  else
    pos

/-- The remaining Euclidean distance after one tick, expressed on the
distance itself (the position moves by `min (speed*frameDt) dist` along the
line, so the distance drops by exactly that amount). -/
def distAfterTick (speed dist : ℚ) : ℚ :=
  if tickEps < dist then dist - min (speed * frameDt) dist else dist

/-- `n` interpolation ticks toward a fixed target, threading the Euclidean
distance alongside the position. -/
def iterTick (target : Position) (speed : ℚ) : ℕ → Position × ℚ → Position × ℚ
  | 0, s => s
  | n + 1, s => iterTick target speed n (updatePosition s.1 target speed s.2, distAfterTick speed s.2)

/-- Frames the browser controller pushes to the WebSocket client. -/
inductive Frame where
  | moveCmd (x y z : ℚ)
deriving DecidableEq, Repr

/-- Browser-side `RobotController` state (the fields of the JS class that
carry protocol/state-machine meaning). -/
structure RobotController where
  position : Position
  targetPosition : Position
  speed : ℚ
  isMoving : Bool
  isCalibrated : Bool
  emergencyStop : Bool
  workspace : Workspace
deriving DecidableEq, Repr

/-- The constructor state of `RobotController`. -/
def RobotController.initial : RobotController :=
  { position := { x := 0, y := 0, z := 5/2 }
    targetPosition := { x := 0, y := 0, z := 5/2 }
    speed := 1
    isMoving := false
    isCalibrated := false
    emergencyStop := false
    workspace := defaultWorkspace }

/-- `RobotController.moveToPosition(x, y, z)`.  `connected` is
`window.websocketClient && window.websocketClient.isConnected()`; `dist` is
the square root taken inside the `updatePosition` call it makes.  Returns
the new state and the frames sent over the WebSocket. -/
def RobotController.moveToPosition (rc : RobotController) (x y z dist : ℚ)
    (connected : Bool) : RobotController × List Frame :=
  if rc.emergencyStop then (rc, [])
  else
    let p := clampToWorkspace rc.workspace x y z
    let frames := if connected then [Frame.moveCmd p.x p.y p.z] else []
    let rc1 := { rc with targetPosition := p }
    ({ rc1 with position := updatePosition rc1.position p rc1.speed dist }, frames)

/-- `RobotController.goHome()`: guard on emergencyStop, then
`moveToPosition(0, 0, 2.5)`. -/
def RobotController.goHome (rc : RobotController) (dist : ℚ)
    (connected : Bool) : RobotController × List Frame :=
  if rc.emergencyStop then (rc, [])
  else rc.moveToPosition 0 0 (5/2) dist connected

/-- `RobotController.calibrate()`: guard on emergencyStop, then (after the
3 s timer) `isCalibrated = true`.  Sends nothing over the WebSocket. -/
def RobotController.calibrate (rc : RobotController) : RobotController :=
  if rc.emergencyStop then rc
  else { rc with isCalibrated := true }

/-- `RobotController.triggerEmergencyStop()`: negate the flag, stop local
motion. -/
def RobotController.triggerEmergencyStop (rc : RobotController) : RobotController :=
  { rc with emergencyStop := !rc.emergencyStop, isMoving := false }

/-! ## Firmware (Arduino sketch) -/

namespace Firmware

/-- One stepper motor, abstracting the external AccelStepper library:
`pos` is `currentPosition()` in steps, `target` the `moveTo` destination.
`run()` advances one step toward the target per call. -/
structure Motor where
  pos : ℤ
  target : ℤ
deriving DecidableEq, Repr

/-- `AccelStepper.stop()`: halt where we are (no further stepping). -/
def Motor.stop (m : Motor) : Motor := { m with target := m.pos }

/-- `AccelStepper.moveTo(steps)`. -/
def Motor.moveTo (m : Motor) (steps : ℤ) : Motor := { m with target := steps }

/-- `AccelStepper.setCurrentPosition(v)`: re-zeroes the motor at `v` and
leaves it stopped there. -/
def Motor.setCurrentPosition (m : Motor) (v : ℤ) : Motor :=
  { m with pos := v, target := v }

/-- `AccelStepper.run()`: one step toward the target, plus the "still
running" flag the sketch collects into `xRunning` etc. -/
def Motor.run (m : Motor) : Motor × Bool :=
  if m.pos = m.target then (m, false)
  else ({ m with pos := m.pos + (if m.pos < m.target then 1 else -1) }, true)

/-- `STEPS_PER_MM = 80`. -/
def stepsPerMM : ℚ := 80

/-- `positionToSteps`: the C cast `(long)(position * STEPS_PER_MM)`
truncates toward zero. -/
def positionToSteps (p : ℚ) : ℤ :=
  Int.tdiv (p * stepsPerMM).num (p * stepsPerMM).den

/-- `stepsToPosition`: `(float)steps / STEPS_PER_MM`. -/
def stepsToPosition (steps : ℤ) : ℚ := (steps : ℚ) / stepsPerMM

/-- The serial lines the sketch prints, one constructor per `println`
form; `err m` is the line `ERROR:<m>`. -/
inductive Line where
  | statusReady
  | statusActive
  | statusInactive
  | statusEmergency
  | calibratedLine
  | err (msg : String)
  | posUpdate (p : Position)
  | movingTo (x y z : ℚ)
  | info (msg : String)
deriving DecidableEq, Repr

/-- Firmware global state: the sketch's globals plus the three motors. -/
structure FwState where
  currentPosition : Position
  targetPosition : Position
  systemActive : Bool
  emergencyStop : Bool
  isCalibrated : Bool
  isMoving : Bool
  motorX : Motor
  motorY : Motor
  motorZ : Motor
deriving DecidableEq, Repr

/-- State after `setup()`. -/
def FwState.initial : FwState :=
  { currentPosition := { x := 0, y := 0, z := 5/2 }
    targetPosition := { x := 0, y := 0, z := 5/2 }
    systemActive := false
    emergencyStop := false
    isCalibrated := false
    isMoving := false
    motorX := { pos := 0, target := 0 }
    motorY := { pos := 0, target := 0 }
    motorZ := { pos := 0, target := 0 } }

/-- A parsed serial command.  `move none` is a `MOVE:` line whose
coordinates fail to parse (missing commas); `unknown` any other line. -/
inductive SerialCmd where
  | move (coords : Option (ℚ × ℚ × ℚ))
  | activate
  | deactivate
  | emergencyStopCmd
  | home
  | calibrateCmd
  | getPos
  | resetEmergency
  | unknown (s : String)
deriving DecidableEq, Repr

/-- `checkEmergencyStop()`: edge-triggered on the physical pin
(`pinPressed` = the pin reads LOW). -/
def checkEmergencyStop (s : FwState) (pinPressed : Bool) : FwState × List Line :=
  if pinPressed && !s.emergencyStop then
    ({ s with
        emergencyStop := true
        systemActive := false
        motorX := s.motorX.stop
        motorY := s.motorY.stop
        motorZ := s.motorZ.stop },
     [Line.statusEmergency, Line.info ("Emergency stop activated!")])
  else (s, [])

/-- `moveToTarget()`. -/
def moveToTarget (s : FwState) : FwState :=
  { s with
    motorX := s.motorX.moveTo (positionToSteps s.targetPosition.x)
    motorY := s.motorY.moveTo (positionToSteps s.targetPosition.y)
    motorZ := s.motorZ.moveTo (positionToSteps s.targetPosition.z)
    isMoving := true }

/-- `sendPositionUpdate()`. -/
def sendPositionUpdate (s : FwState) : List Line :=
  [Line.posUpdate s.currentPosition]

/-- `handleMoveCommand(command)`: guard, parse, workspace check, move. -/
def handleMoveCommand (s : FwState) (coords : Option (ℚ × ℚ × ℚ)) :
    FwState × List Line :=
  if !s.systemActive || s.emergencyStop then
    (s, [Line.err ("System not active or emergency stop")])
  else
    match coords with
    | none => (s, [Line.err ("Invalid move command format")])
    | some (x, y, z) =>
      if x < -(5/2) || x > 5/2 || y < -(5/2) || y > 5/2 || z < 1/2 || z > 9/2 then
        (s, [Line.err ("Position out of workspace bounds")])
      else
        let s1 := { s with targetPosition := { x := x, y := y, z := z } }
        (moveToTarget s1, [Line.movingTo x y z])

/-- `handleActivateCommand()`. -/
def handleActivateCommand (s : FwState) : FwState × List Line :=
  if s.emergencyStop then
    (s, [Line.err ("Clear emergency stop first")])
  else if !s.isCalibrated then
    (s, [Line.err ("Robot not calibrated")])
  else
    ({ s with systemActive := true },
     [Line.statusActive, Line.info ("System activated")])

/-- `handleDeactivateCommand()`. -/
def handleDeactivateCommand (s : FwState) : FwState × List Line :=
  ({ s with
      systemActive := false
      motorX := s.motorX.stop
      motorY := s.motorY.stop
      motorZ := s.motorZ.stop },
   [Line.statusInactive, Line.info ("System deactivated")])

/-- `handleEmergencyStopCommand()`. -/
def handleEmergencyStopCommand (s : FwState) : FwState × List Line :=
  ({ s with
      emergencyStop := true
      systemActive := false
      motorX := s.motorX.stop
      motorY := s.motorY.stop
      motorZ := s.motorZ.stop },
   [Line.statusEmergency, Line.info ("Emergency stop activated via command")])

/-- `handleHomeCommand()`. -/
def handleHomeCommand (s : FwState) : FwState × List Line :=
  if !s.systemActive || s.emergencyStop then
    (s, [Line.err ("System not active or emergency stop")])
  else
    let s1 := { s with targetPosition := { x := 0, y := 0, z := 5/2 } }
    (moveToTarget s1, [Line.info ("Moving to home position")])

/-- `handleCalibrateCommand()`. -/
def handleCalibrateCommand (s : FwState) : FwState × List Line :=
  if s.systemActive then
    (s, [Line.err ("Deactivate system before calibration")])
  else if s.emergencyStop then
    (s, [Line.err ("Clear emergency stop before calibration")])
  else
    let home : Position := { x := 0, y := 0, z := 5/2 }
    ({ s with
        currentPosition := home
        targetPosition := home
        motorX := s.motorX.setCurrentPosition 0
        motorY := s.motorY.setCurrentPosition 0
        motorZ := s.motorZ.setCurrentPosition (positionToSteps (5/2))
        isCalibrated := true },
     [Line.info ("Starting calibration..."), Line.calibratedLine,
      Line.info ("Calibration completed")])

/-- `handleResetEmergency()`: the pin must read HIGH (released). -/
def handleResetEmergency (s : FwState) (pinPressed : Bool) : FwState × List Line :=
  if !pinPressed then
    ({ s with emergencyStop := false },
     [Line.statusReady, Line.info ("Emergency stop cleared")])
  else
    (s, [Line.err ("Release emergency stop button first")])

/-- `handleCommand(command)`: dispatch on the parsed line.  The reset path
reads the same pin level as this loop iteration's `checkEmergencyStop`. -/
def handleCommand (s : FwState) (c : SerialCmd) (pinPressed : Bool) :
    FwState × List Line :=
  match c with
  | SerialCmd.move coords => handleMoveCommand s coords
  | SerialCmd.activate => handleActivateCommand s
  | SerialCmd.deactivate => handleDeactivateCommand s
  | SerialCmd.emergencyStopCmd => handleEmergencyStopCommand s
  | SerialCmd.home => handleHomeCommand s
  | SerialCmd.calibrateCmd => handleCalibrateCommand s
  | SerialCmd.getPos => (s, sendPositionUpdate s)
  | SerialCmd.resetEmergency => handleResetEmergency s pinPressed
  | SerialCmd.unknown msg => (s, [Line.err ("Unknown command: " ++ msg)])

/-- `updateMotors()`. -/
def updateMotors (s : FwState) : FwState × List Line :=
  if !s.isMoving then (s, [])
  else
    let rx := s.motorX.run
    let ry := s.motorY.run
    let rz := s.motorZ.run
    let s1 := { s with motorX := rx.1, motorY := ry.1, motorZ := rz.1 }
    if !rx.2 && !ry.2 && !rz.2 then
      let s2 := { s1 with
        isMoving := false
        currentPosition :=
          { x := stepsToPosition rx.1.pos
            y := stepsToPosition ry.1.pos
            z := stepsToPosition rz.1.pos } }
      (s2, [Line.info ("Movement completed")] ++ sendPositionUpdate s2)
    else (s1, [])

/-- The external inputs of one `loop()` iteration: the emergency pin level,
at most one full serial line, and whether the 100 ms position timer fires. -/
structure LoopInput where
  pinPressed : Bool
  serial : Option SerialCmd
  posTimerDue : Bool
deriving DecidableEq, Repr

/-- One iteration of `loop()`: emergency-pin check, serial command,
guarded motor update, periodic position report. -/
def loopStep (s : FwState) (i : LoopInput) : FwState × List Line :=
  let r1 := checkEmergencyStop s i.pinPressed
  let r2 :=
    match i.serial with
    | none => (r1.1, ([] : List Line))
    | some c => handleCommand r1.1 c i.pinPressed
  let r3 :=
    if r2.1.systemActive && !r2.1.emergencyStop then updateMotors r2.1
    else (r2.1, ([] : List Line))
  let o4 :=
    if i.posTimerDue && r3.1.systemActive then sendPositionUpdate r3.1 else []
  (r3.1, r1.2 ++ r2.2 ++ r3.2 ++ o4)

/-- Run the loop over a sequence of inputs, discarding output. -/
def run (s : FwState) : List LoopInput → FwState
  | [] => s
  | i :: rest => run (loopStep s i).1 rest

/-- The safety invariant of claim C3: an active system is calibrated and
not in emergency stop. -/
def Inv (s : FwState) : Prop :=
  s.systemActive = true → s.isCalibrated = true ∧ s.emergencyStop = false

/-- A calibrated, activated firmware state (reached by `CALIBRATE` then
`ACTIVATE` from boot). -/
def activeState : FwState :=
  { FwState.initial with systemActive := true, isCalibrated := true }

/-- A state in emergency stop (reached from boot by `EMERGENCY_STOP`). -/
def estopState : FwState :=
  { FwState.initial with emergencyStop := true }

/-- A calibrated, ready (inactive) state (reached from boot by
`CALIBRATE`). -/
def readyState : FwState :=
  { FwState.initial with isCalibrated := true }

instance (s : FwState) : Decidable (Inv s) := by
  unfold Inv; infer_instance

end Firmware

/-! ## Browser WebSocket client (websocket-client.js) -/

namespace WSClient

/-- The structured content of one outgoing frame built by `sendCommand`
(the JS object before `JSON.stringify`; serialization is a bijection, so
the queue and the send log are modelled at this level). -/
structure Msg where
  id : String
  command : String
  payload : Option Position
  timestamp : ℕ
deriving DecidableEq, Repr

/-- How a pending command's promise was settled. -/
inductive Outcome where
  | resolved
  | rejectedError
  | rejectedTimeout
deriving DecidableEq, Repr

/-- `WebSocketClient` state: connection flags, reconnect bookkeeping, the
message queue, the pending-callback map (id with its timeout deadline in
ms), plus a log of frames actually passed to `socket.send` and of settled
promises. -/
structure Client where
  isConnected : Bool
  socketOpen : Bool
  reconnectAttempts : ℕ
  maxReconnectAttempts : ℕ
  reconnectDelay : ℕ
  messageQueue : List Msg
  callbacks : List (String × ℕ)
  settled : List (String × Outcome)
  sentFrames : List Msg
deriving DecidableEq, Repr

/-- Constructor state (`maxReconnectAttempts = 5`,
`reconnectDelay = 1000` ms). -/
def Client.initial : Client :=
  { isConnected := false
    socketOpen := false
    reconnectAttempts := 0
    maxReconnectAttempts := 5
    reconnectDelay := 1000
    messageQueue := []
    callbacks := []
    settled := []
    sentFrames := [] }

/-- `send(message)`: transmit when connected and the socket is OPEN,
otherwise push onto `messageQueue`. -/
def send (c : Client) (m : Msg) : Client :=
  if c.isConnected && c.socketOpen then
    { c with sentFrames := c.sentFrames ++ [m] }
  else
    { c with messageQueue := c.messageQueue ++ [m] }

/-- The `while (length > 0) shift(); socket.send()` drain loop of
`processMessageQueue`, on the queue list. -/
def drainQueue (sent : List Msg) : List Msg → List Msg
  | [] => sent
  | m :: rest => drainQueue (sent ++ [m]) rest

/-- `processMessageQueue()`. -/
def processMessageQueue (c : Client) : Client :=
  { c with messageQueue := [], sentFrames := drainQueue c.sentFrames c.messageQueue }

/-- The `socket.onopen` handler: mark connected, zero the attempt counter,
flush the queue. -/
def handleOpen (c : Client) : Client :=
  processMessageQueue { c with isConnected := true, socketOpen := true, reconnectAttempts := 0 }

/-- The command timeout: the `10000` in `sendCommand`. -/
def commandTimeoutMs : ℕ := 10000

/-- `sendCommand(command, data)` at wall-clock time `now` with the id
produced by `generateMessageId`: register the callback, arm the timeout
for `now + 10000` (at creation, before any send/queue decision), then
`send` the message. -/
def sendCommand (c : Client) (command : String) (payload : Option Position)
    (id : String) (now : ℕ) : Client :=
  let msg : Msg := { id := id, command := command, payload := payload, timestamp := now }
  let c1 := { c with callbacks := c.callbacks ++ [(id, now + commandTimeoutMs)] }
  send c1 msg

/-- Is an id pending (a callback entry exists for it)? -/
def hasCallback (c : Client) (id : String) : Bool :=
  c.callbacks.any (fun e => e.1 == id)

/-- `handleResponse(message)`: settle and remove the callback when the id
is known, silently drop the frame otherwise. -/
def handleResponse (c : Client) (id : String) (success : Bool) : Client :=
  if hasCallback c id then
    { c with
      callbacks := c.callbacks.filter (fun e => !(e.1 == id))
      settled := c.settled ++ [(id, if success then Outcome.resolved else Outcome.rejectedError)] }
  else c

/-- The body of the `setTimeout` armed by `sendCommand`, running at the
deadline: reject with the timeout error and delete the entry if (and only
if) it is still pending. -/
def fireTimeout (c : Client) (id : String) : Client :=
  if hasCallback c id then
    { c with
      callbacks := c.callbacks.filter (fun e => !(e.1 == id))
      settled := c.settled ++ [(id, Outcome.rejectedTimeout)] }
  else c

/-- Events that can settle pending commands after submission. -/
inductive ChEvent where
  | response (id : String) (success : Bool)
  | timerFire (id : String)
deriving DecidableEq, Repr

/-- Apply one settling event. -/
def applyEvent (c : Client) : ChEvent → Client
  | ChEvent.response id success => handleResponse c id success
  | ChEvent.timerFire id => fireTimeout c id

/-- Apply a sequence of settling events. -/
def applyEvents (c : Client) : List ChEvent → Client
  | [] => c
  | e :: rest => applyEvents (applyEvent c e) rest

/-- `connect()`: a fresh `WebSocket` object, not yet OPEN. -/
def connect (c : Client) : Client :=
  { c with socketOpen := false }

/-- `handleDisconnection()`, together with the later firing of the timer it
arms: when the attempt counter is below the maximum, returns the scheduled
delay (`reconnectDelay * reconnectAttempts`, computed before the counter is
incremented inside the callback) and the state after the callback runs;
returns `none` when the maximum is reached. -/
def handleDisconnection (c : Client) : Option (ℕ × Client) :=
  if c.reconnectAttempts < c.maxReconnectAttempts then
    some (c.reconnectDelay * c.reconnectAttempts,
          connect { c with reconnectAttempts := c.reconnectAttempts + 1 })
  else
    none

/-- The `socket.onclose` handler for an unintentional close: clear
`isConnected`, then `handleDisconnection`. -/
def handleClose (c : Client) : Option (ℕ × Client) :=
  handleDisconnection { c with isConnected := false, socketOpen := false }

/-- The delays of successive reconnect attempts when every attempt fails
again (each `connect` leads to another `onclose`).  `fuel` bounds the
recursion; any `fuel ≥ maxReconnectAttempts - reconnectAttempts` is
enough. -/
def failureCascade : ℕ → Client → List ℕ
  | 0, _ => []
  | fuel + 1, c =>
    match handleClose c with
    | none => []
    | some (d, c1) => d :: failureCascade fuel c1

/-- `generateMessageId()` helper: one decimal digit. -/
def digitChar (d : ℕ) : Char :=
  match d with
  | 0 => '0'
  | 1 => '1'
  | 2 => '2'
  | 3 => '3'
  | 4 => '4'
  | 5 => '5'
  | 6 => '6'
  | 7 => '7'
  | 8 => '8'
  | 9 => '9'
  | _ => '*'

/-- Little-endian base-10 digits, with explicit fuel (any `fuel ≥ n`
gives the digits of `n`). -/
def digitsLE : ℕ → ℕ → List ℕ
  | 0, _ => []
  | fuel + 1, n => if n = 0 then [] else n % 10 :: digitsLE fuel (n / 10)

/-- The decimal rendering of a natural number (what JS string
concatenation does to the integer `Date.now()`), big-endian. -/
def natChars (n : ℕ) : List Char :=
  if n = 0 then ['0'] else ((digitsLE n n).reverse.map digitChar)

/-- Inverse of `digitChar` on decimal digits (proof device for
injectivity of the rendering). -/
def charToDigit (c : Char) : ℕ :=
  match c with
  | '0' => 0
  | '1' => 1
  | '2' => 2
  | '3' => 3
  | '4' => 4
  | '5' => 5
  | '6' => 6
  | '7' => 7
  | '8' => 8
  | '9' => 9
  | _ => 99

/-- Value of a little-endian digit list (proof device). -/
def valLE : List ℕ → ℕ
  | [] => 0
  | d :: ds => d + 10 * valLE ds

/-- `generateMessageId()`:
`'msg_' + Date.now() + '_' + Math.random().toString(36).substr(2, 9)`,
with the observed clock value `now` and random suffix `rand` as inputs. -/
def generateMessageId (now : ℕ) (rand : String) : String :=
  String.mk ((String.mk ['m', 's', 'g', '_']).data ++ natChars now ++ '_' :: rand.data)

/-- The id produced by the `i`-th call to `sendCommand`, given the oracle
of (clock, random-suffix) observations of each call. -/
def callId (oracle : ℕ → ℕ × String) (i : ℕ) : String :=
  generateMessageId (oracle i).1 (oracle i).2

/-- Submit a batch of messages through `send`, in order. -/
def sendAll (c : Client) : List Msg → Client
  | [] => c
  | m :: rest => sendAll (send c m) rest

/-- Number of pending callback entries for an id. -/
def countPending (c : Client) (id : String) : ℕ :=
  (c.callbacks.filter (fun e => e.1 == id)).length

/-- Number of settled outcomes recorded for an id. -/
def countSettled (c : Client) (id : String) : ℕ :=
  (c.settled.filter (fun e => e.1 == id)).length

end WSClient

/-! ## Theorems -/

/-- A clamped coordinate lies within its axis range. -/
theorem clampAxis_mem (r : AxisRange) (v : ℚ) (h : r.lo ≤ r.hi) :
    r.lo ≤ clampAxis r v ∧ clampAxis r v ≤ r.hi := by
  constructor
  · exact le_max_left _ _
  · exact max_le h (min_le_left _ _)

/-- C9: the browser-side `triggerEmergencyStop` is a toggle, not a latch:
each call negates `emergencyStop` and clears `isMoving`, so two calls in
succession restore the flag's prior value — the same operation serves as
both emergency_stop and reset on the client. -/
theorem C9_trigger_emergency_toggles (rc : RobotController) :
    rc.triggerEmergencyStop.emergencyStop = !rc.emergencyStop ∧
    rc.triggerEmergencyStop.isMoving = false ∧
    rc.triggerEmergencyStop.triggerEmergencyStop.emergencyStop = rc.emergencyStop := by
  refine ⟨rfl, rfl, ?_⟩
  simp [RobotController.triggerEmergencyStop]

/-- C10: while the browser-side `emergencyStop` flag is set,
`moveToPosition`, `goHome` and `calibrate` return immediately: the whole
controller state (position, targetPosition, isCalibrated, speed, workspace)
is unchanged, no frame goes over the WebSocket, and no error is surfaced. -/
theorem C10_emergency_freezes_browser (rc : RobotController)
    (x y z dist : ℚ) (connected : Bool) (h : rc.emergencyStop = true) :
    rc.moveToPosition x y z dist connected = (rc, []) ∧
    rc.goHome dist connected = (rc, []) ∧
    rc.calibrate = rc := by
  refine ⟨?_, ?_, ?_⟩ <;>
    simp [RobotController.moveToPosition, RobotController.goHome,
      RobotController.calibrate, h]

/-- Witness for C10 at a concrete stopped controller. -/
theorem C10_emergency_freezes_browser_witness :
    ({ RobotController.initial with emergencyStop := true } : RobotController).moveToPosition
        3 3 3 0 true
      = ({ RobotController.initial with emergencyStop := true }, []) :=
  (C10_emergency_freezes_browser
    { RobotController.initial with emergencyStop := true } 3 3 3 0 true rfl).1

/-- `isInWorkspace = false` for the default bounds yields the firmware's
out-of-bounds disjunction (the two checks cover the same box). -/
theorem inWorkspace_false_iff (x y z : ℚ)
    (h : inWorkspace defaultWorkspace x y z = false) :
    x < -(5/2) ∨ x > 5/2 ∨ y < -(5/2) ∨ y > 5/2 ∨ z < 1/2 ∨ z > 9/2 := by
  simp only [inWorkspace, defaultWorkspace, Bool.and_eq_false_iff,
    decide_eq_false_iff_not, not_le] at h
  rcases h with ((((h | h) | h) | h) | h) | h
  all_goals tauto

/-- C1 (amended): the two tiers apply *different* policies to every target
outside the (default) workspace bounds: the browser tier clamps the target
componentwise into the bounds and proceeds, while the firmware tier
rejects the move with an out-of-bounds error and leaves its state
untouched. -/
theorem C1_validation_policies_differ (x y z dist : ℚ) (conn : Bool)
    (rc : RobotController) (s : Firmware.FwState)
    (hw : rc.workspace = defaultWorkspace) (hrc : rc.emergencyStop = false)
    (hout : inWorkspace defaultWorkspace x y z = false)
    (hact : s.systemActive = true) (hes : s.emergencyStop = false) :
    (rc.moveToPosition x y z dist conn).1.targetPosition
        = clampToWorkspace defaultWorkspace x y z ∧
    inWorkspace defaultWorkspace
        (clampToWorkspace defaultWorkspace x y z).x
        (clampToWorkspace defaultWorkspace x y z).y
        (clampToWorkspace defaultWorkspace x y z).z = true ∧
    Firmware.handleMoveCommand s (some (x, y, z))
      = (s, [Firmware.Line.err ("Position out of workspace bounds")]) := by
  refine ⟨?_, ?_, ?_⟩
  · simp [RobotController.moveToPosition, hrc, hw]
  · have hx := clampAxis_mem defaultWorkspace.wx x (by norm_num [defaultWorkspace])
    have hy := clampAxis_mem defaultWorkspace.wy y (by norm_num [defaultWorkspace])
    have hz := clampAxis_mem defaultWorkspace.wz z (by norm_num [defaultWorkspace])
    simp only [inWorkspace, clampToWorkspace, Bool.and_eq_true, decide_eq_true_eq]
    exact ⟨⟨⟨⟨⟨hx.1, hx.2⟩, hy.1⟩, hy.2⟩, hz.1⟩, hz.2⟩
  · have hcond := inWorkspace_false_iff x y z hout
    rcases hcond with h | h | h | h | h | h <;>
      simp [Firmware.handleMoveCommand, hact, hes, h]
    all_goals (intro h1 h2 h3 h4 h5; linarith)

/-- C1 counterexample: at the requested target (10, 10, 10) against the
default bounds, the browser tier adopts the clamped target
(2.5, 2.5, 2.5) (it does not reject), while the firmware tier replies
`ERROR:Position out of workspace bounds` and keeps its previous target
(it does not clamp) — so it is false that both tiers clamp or both
reject. -/
theorem C1_counterexample :
    ¬ (((RobotController.initial.moveToPosition 10 10 10 0 true).1.targetPosition
          = clampToWorkspace defaultWorkspace 10 10 10 ∧
        (Firmware.handleMoveCommand Firmware.activeState
            (some (10, 10, 10))).1.targetPosition
          = clampToWorkspace defaultWorkspace 10 10 10) ∨
       ((RobotController.initial.moveToPosition 10 10 10 0 true).1.targetPosition
          = RobotController.initial.targetPosition ∧
        (Firmware.handleMoveCommand Firmware.activeState
            (some (10, 10, 10))).2
          = [Firmware.Line.err ("Position out of workspace bounds")])) := by
  have hclamp : clampToWorkspace defaultWorkspace 10 10 10
      = { x := 5/2, y := 5/2, z := 9/2 } := by
    simp [clampToWorkspace, clampAxis, defaultWorkspace, min_def, max_def]
    norm_num
  have hfw : (Firmware.handleMoveCommand Firmware.activeState
      (some (10, 10, 10))).1.targetPosition = { x := 0, y := 0, z := 5/2 } := by
    norm_num [Firmware.handleMoveCommand, Firmware.activeState,
      Firmware.FwState.initial]
  have hbrowser : (RobotController.initial.moveToPosition 10 10 10 0 true).1.targetPosition
      = clampToWorkspace defaultWorkspace 10 10 10 := by
    simp [RobotController.moveToPosition, RobotController.initial]
  rintro (⟨h1, h2⟩ | ⟨h1, h2⟩)
  · rw [hfw, hclamp] at h2
    simp only [Position.mk.injEq] at h2
    norm_num at h2
  · rw [hbrowser, hclamp] at h1
    simp only [RobotController.initial, Position.mk.injEq] at h1
    norm_num at h1

/-- Witness for the amended C1 at target (10, 10, 10). -/
theorem C1_validation_policies_differ_witness :
    (RobotController.initial.moveToPosition 10 10 10 0 false).1.targetPosition
        = clampToWorkspace defaultWorkspace 10 10 10 ∧
    Firmware.handleMoveCommand Firmware.activeState (some (10, 10, 10))
      = (Firmware.activeState,
         [Firmware.Line.err ("Position out of workspace bounds")]) :=
  ⟨(C1_validation_policies_differ 10 10 10 0 false RobotController.initial
      Firmware.activeState rfl rfl (by
        simp only [inWorkspace, defaultWorkspace, Bool.and_eq_false_iff,
          decide_eq_false_iff_not, not_le]
        left; norm_num) rfl rfl).1,
   (C1_validation_policies_differ 10 10 10 0 false RobotController.initial
      Firmware.activeState rfl rfl (by
        simp only [inWorkspace, defaultWorkspace, Bool.and_eq_false_iff,
          decide_eq_false_iff_not, not_le]
        left; norm_num) rfl rfl).2.2⟩

/-! ### Motion interpolation (C6) -/

/-- The threaded distance stays nonnegative across a tick. -/
theorem distAfterTick_nonneg (speed dist : ℚ) (h : 0 ≤ dist) :
    0 ≤ distAfterTick speed dist := by
  unfold distAfterTick
  split
  · have hmin : min (speed * frameDt) dist ≤ dist := min_le_right _ _
    linarith
  · exact h

/-- One tick of `updatePosition` moves the position along the line so that
the new squared distance to the target is exactly the square of
`distAfterTick`. -/
theorem distAfterTick_sq (pos target : Position) (speed dist : ℚ)
    (hsq : dist ^ 2 = sqDist pos target) :
    (distAfterTick speed dist) ^ 2
      = sqDist (updatePosition pos target speed dist) target := by
  by_cases h : tickEps < dist
  · have hd : dist ≠ 0 := by
      have h2 : (0 : ℚ) < dist := lt_trans (by norm_num [tickEps]) h
      exact ne_of_gt h2
    simp only [distAfterTick, updatePosition, if_pos h]
    set m := min (speed * frameDt) dist with hm
    simp only [sqDist] at hsq ⊢
    have key : ∀ a b : ℚ,
        b - (a + (b - a) * (m / dist)) = (b - a) * ((dist - m) / dist) := by
      intro a b
      field_simp
      ring
    rw [key pos.x target.x, key pos.y target.y, key pos.z target.z]
    have e1 : ((target.x - pos.x) * ((dist - m) / dist)) ^ 2
        + ((target.y - pos.y) * ((dist - m) / dist)) ^ 2
        + ((target.z - pos.z) * ((dist - m) / dist)) ^ 2
        = ((dist - m) / dist) ^ 2
          * ((target.x - pos.x) ^ 2 + (target.y - pos.y) ^ 2 + (target.z - pos.z) ^ 2) := by
      ring
    rw [e1, ← hsq]
    field_simp
  · simp only [distAfterTick, updatePosition, if_neg h]
    exact hsq

/-- Unfold one tick on the outside of the iteration. -/
theorem iterTick_succ_out (target : Position) (speed : ℚ) (n : ℕ) :
    ∀ s : Position × ℚ,
      iterTick target speed (n + 1) s
        = (updatePosition (iterTick target speed n s).1 target speed
            (iterTick target speed n s).2,
           distAfterTick speed (iterTick target speed n s).2) := by
  induction n with
  | zero => intro s; rfl
  | succ n ih =>
    intro s
    show iterTick target speed (n + 1)
        (updatePosition s.1 target speed s.2, distAfterTick speed s.2) = _
    rw [ih]
    rfl

/-- Once the remaining distance is inside the dead-band, every further
tick is the identity. -/
theorem iterTick_frozen (target : Position) (speed : ℚ) (n : ℕ)
    (pos : Position) (dist : ℚ) (h : ¬ tickEps < dist) :
    iterTick target speed n (pos, dist) = (pos, dist) := by
  induction n with
  | zero => rfl
  | succ n ih =>
    show iterTick target speed n
        (updatePosition pos target speed dist, distAfterTick speed dist) = _
    rw [show updatePosition pos target speed dist = pos by
          simp [updatePosition, if_neg h],
        show distAfterTick speed dist = dist by
          simp [distAfterTick, if_neg h]]
    exact ih

/-- Each tick either already rests inside the dead-band or has consumed
`speed * frameDt` of distance per tick so far. -/
theorem iterTick_descent (target : Position) (speed : ℚ) :
    ∀ (n : ℕ) (pos : Position) (dist : ℚ), 0 ≤ dist →
      (iterTick target speed n (pos, dist)).2 ≤ tickEps ∨
      (iterTick target speed n (pos, dist)).2 ≤ dist - n * (speed * frameDt) := by
  intro n
  induction n with
  | zero =>
    intro pos dist h0
    right
    simp [iterTick]
  | succ n ih =>
    intro pos dist h0
    by_cases h : tickEps < dist
    · by_cases hm : speed * frameDt < dist
      · have hstep : distAfterTick speed dist = dist - speed * frameDt := by
          simp [distAfterTick, if_pos h, min_eq_left (le_of_lt hm)]
        have h0x : (0 : ℚ) ≤ dist - speed * frameDt := by linarith
        have hiter : iterTick target speed (n + 1) (pos, dist)
            = iterTick target speed n
                (updatePosition pos target speed dist, dist - speed * frameDt) := by
          show iterTick target speed n
              (updatePosition pos target speed dist, distAfterTick speed dist) = _
          rw [hstep]
        rcases ih (updatePosition pos target speed dist) (dist - speed * frameDt) h0x
          with hl | hr
        · left
          rw [hiter]
          exact hl
        · right
          rw [hiter]
          push_cast
          calc (iterTick target speed n
                  (updatePosition pos target speed dist, dist - speed * frameDt)).2
              ≤ dist - speed * frameDt - n * (speed * frameDt) := hr
            _ = dist - ((n : ℚ) + 1) * (speed * frameDt) := by ring
      · have hstep : distAfterTick speed dist = 0 := by
          have hmin : min (speed * frameDt) dist = dist :=
            min_eq_right (le_of_not_lt hm)
          simp [distAfterTick, if_pos h, hmin]
        left
        have hiter : iterTick target speed (n + 1) (pos, dist)
            = iterTick target speed n (updatePosition pos target speed dist, 0) := by
          show iterTick target speed n
              (updatePosition pos target speed dist, distAfterTick speed dist) = _
          rw [hstep]
        rw [hiter, iterTick_frozen target speed n _ 0 (by norm_num [tickEps])]
        norm_num [tickEps]
    · left
      rw [iterTick_frozen target speed (n + 1) pos dist h]
      exact le_of_not_lt h

/-- The threaded distance really is the Euclidean distance at every step. -/
theorem iterTick_inv (target : Position) (speed : ℚ) :
    ∀ (n : ℕ) (pos : Position) (dist : ℚ), 0 ≤ dist →
      dist ^ 2 = sqDist pos target →
      0 ≤ (iterTick target speed n (pos, dist)).2 ∧
      ((iterTick target speed n (pos, dist)).2) ^ 2
        = sqDist (iterTick target speed n (pos, dist)).1 target := by
  intro n
  induction n with
  | zero =>
    intro pos dist h0 hsq
    exact ⟨h0, hsq⟩
  | succ n ih =>
    intro pos dist h0 hsq
    have h1 := distAfterTick_nonneg speed dist h0
    have h2 := distAfterTick_sq pos target speed dist hsq
    exact ih (updatePosition pos target speed dist) (distAfterTick speed dist) h1 h2

/-- C6: one interpolation tick moves the current position toward the
target by `min (speed * 0.016) remainingDistance`, so the remaining
Euclidean distance — tracked exactly by `distAfterTick` — strictly
decreases while it exceeds the 0.01 dead-band; after
`⌈dist / (speed * 0.016)⌉` ticks the remaining distance is within the
dead-band and every further tick leaves the position unchanged. -/
theorem C6_interpolation_converges (pos target : Position) (speed dist : ℚ)
    (hs : 0 < speed) (h0 : 0 ≤ dist) (hsq : dist ^ 2 = sqDist pos target) :
    (distAfterTick speed dist) ^ 2
        = sqDist (updatePosition pos target speed dist) target ∧
    (tickEps < dist →
        distAfterTick speed dist = dist - min (speed * frameDt) dist ∧
        distAfterTick speed dist < dist) ∧
    (dist ≤ tickEps → updatePosition pos target speed dist = pos) ∧
    (∀ n : ℕ, 0 ≤ (iterTick target speed n (pos, dist)).2 ∧
        ((iterTick target speed n (pos, dist)).2) ^ 2
          = sqDist (iterTick target speed n (pos, dist)).1 target) ∧
    ∀ n : ℕ, ⌈dist / (speed * frameDt)⌉₊ ≤ n →
      (iterTick target speed n (pos, dist)).2 ≤ tickEps ∧
      iterTick target speed (n + 1) (pos, dist) = iterTick target speed n (pos, dist) := by
  have hper : (0 : ℚ) < speed * frameDt := by
    have : (0 : ℚ) < frameDt := by norm_num [frameDt]
    positivity
  refine ⟨distAfterTick_sq pos target speed dist hsq, ?_, ?_, ?_, ?_⟩
  · intro h
    have hd0 : (0 : ℚ) < dist := lt_trans (by norm_num [tickEps]) h
    have hmin : (0 : ℚ) < min (speed * frameDt) dist := lt_min hper hd0
    constructor
    · simp [distAfterTick, if_pos h]
    · simp only [distAfterTick, if_pos h]
      linarith
  · intro h
    simp [updatePosition, if_neg (not_lt.mpr h)]
  · intro n
    exact iterTick_inv target speed n pos dist h0 hsq
  · intro n hn
    have hdist : (iterTick target speed n (pos, dist)).2 ≤ tickEps := by
      rcases iterTick_descent target speed n pos dist h0 with hl | hr
      · exact hl
      · have hceil : dist / (speed * frameDt) ≤ (n : ℚ) := by
          calc dist / (speed * frameDt)
              ≤ (⌈dist / (speed * frameDt)⌉₊ : ℚ) := Nat.le_ceil _
            _ ≤ (n : ℚ) := by exact_mod_cast hn
        have hmul : dist ≤ (n : ℚ) * (speed * frameDt) := by
          rw [div_le_iff₀ hper] at hceil
          linarith
        have : (iterTick target speed n (pos, dist)).2 ≤ 0 := by linarith
        linarith [show (0 : ℚ) ≤ tickEps by norm_num [tickEps]]
    refine ⟨hdist, ?_⟩
    rw [iterTick_succ_out target speed n (pos, dist)]
    have hno : ¬ tickEps < (iterTick target speed n (pos, dist)).2 :=
      not_lt.mpr hdist
    rw [show updatePosition (iterTick target speed n (pos, dist)).1 target speed
          (iterTick target speed n (pos, dist)).2
          = (iterTick target speed n (pos, dist)).1 by
        simp [updatePosition, if_neg hno],
      show distAfterTick speed (iterTick target speed n (pos, dist)).2
          = (iterTick target speed n (pos, dist)).2 by
        simp [distAfterTick, if_neg hno]]

/-- Witness for C6: from the origin toward (0.03, 0, 0.04) at speed 1
(per-frame step 0.016, initial distance 0.05), four ticks land inside the
dead-band and the fifth changes nothing. -/
theorem C6_interpolation_converges_witness :
    (iterTick { x := 3/100, y := 0, z := 4/100 } 1 4
        ({ x := 0, y := 0, z := 0 }, 1/20)).2 ≤ tickEps ∧
    iterTick { x := 3/100, y := 0, z := 4/100 } 1 5
        ({ x := 0, y := 0, z := 0 }, 1/20)
      = iterTick { x := 3/100, y := 0, z := 4/100 } 1 4
          ({ x := 0, y := 0, z := 0 }, 1/20) :=
  (C6_interpolation_converges { x := 0, y := 0, z := 0 }
      { x := 3/100, y := 0, z := 4/100 } 1 (1/20)
      (by norm_num) (by norm_num)
      (by norm_num [sqDist])).2.2.2.2 4
    (by norm_num [frameDt, Nat.ceil_eq_iff])

/-! ### Firmware safety state machine (C2, C3) -/

open Firmware

/-- A stopped motor does not step: `run` returns it unchanged. -/
theorem Motor.run_stop (m : Motor) :
    Motor.run (Motor.stop m) = (Motor.stop m, false) := by
  simp [Motor.run, Motor.stop]

/-- `updateMotors` never touches the safety flags. -/
theorem updateMotors_flags (s : FwState) :
    (updateMotors s).1.systemActive = s.systemActive ∧
    (updateMotors s).1.emergencyStop = s.emergencyStop ∧
    (updateMotors s).1.isCalibrated = s.isCalibrated := by
  unfold updateMotors
  split
  · exact ⟨rfl, rfl, rfl⟩
  · dsimp only
    split <;> exact ⟨rfl, rfl, rfl⟩

/-- `checkEmergencyStop` preserves the safety invariant. -/
theorem Inv_checkEmergencyStop (s : FwState) (pin : Bool) (h : Firmware.Inv s) :
    Firmware.Inv (checkEmergencyStop s pin).1 := by
  unfold checkEmergencyStop
  split
  · intro hA
    simp at hA
  · exact h

/-- Every serial command handler preserves the safety invariant. -/
theorem Inv_handleCommand (s : FwState) (c : SerialCmd) (pin : Bool)
    (h : Firmware.Inv s) :
    Firmware.Inv (handleCommand s c pin).1 := by
  cases c with
  | move coords =>
    show Firmware.Inv (handleMoveCommand s coords).1
    unfold handleMoveCommand
    split
    · exact h
    · cases coords with
      | none => exact h
      | some t =>
        obtain ⟨x, y, z⟩ := t
        dsimp only
        split
        · exact h
        · intro hA
          exact h hA
  | activate =>
    show Firmware.Inv (handleActivateCommand s).1
    unfold handleActivateCommand
    split_ifs with h1 h2
    · exact h
    · exact h
    · intro _
      constructor
      · simpa using h2
      · simpa using h1
  | deactivate =>
    show Firmware.Inv (handleDeactivateCommand s).1
    intro hA
    simp [handleDeactivateCommand] at hA
  | emergencyStopCmd =>
    show Firmware.Inv (handleEmergencyStopCommand s).1
    intro hA
    simp [handleEmergencyStopCommand] at hA
  | home =>
    show Firmware.Inv (handleHomeCommand s).1
    unfold handleHomeCommand
    split
    · exact h
    · intro hA
      exact h hA
  | calibrateCmd =>
    show Firmware.Inv (handleCalibrateCommand s).1
    unfold handleCalibrateCommand
    split_ifs with h1 h2
    · exact h
    · exact h
    · intro hA
      exact absurd hA h1
  | getPos => exact h
  | resetEmergency =>
    show Firmware.Inv (handleResetEmergency s pin).1
    unfold handleResetEmergency
    split_ifs with h1
    · intro hA
      exact ⟨(h hA).1, rfl⟩
    · exact h
  | unknown msg => exact h

/-- The guarded `updateMotors()` call of `loop()` preserves the safety
invariant. -/
theorem Inv_guardedUpdate (t : FwState) (h : Firmware.Inv t) :
    Firmware.Inv
      (if t.systemActive && !t.emergencyStop then updateMotors t
       else (t, ([] : List Line))).1 := by
  split
  · intro hA
    have hf := updateMotors_flags t
    rw [hf.1] at hA
    have hc := h hA
    exact ⟨by rw [hf.2.2]; exact hc.1, by rw [hf.2.1]; exact hc.2⟩
  · exact h

/-- One `loop()` iteration preserves the safety invariant. -/
theorem Inv_loopStep (s : FwState) (i : LoopInput) (h : Firmware.Inv s) :
    Firmware.Inv (loopStep s i).1 := by
  unfold loopStep
  dsimp only
  apply Inv_guardedUpdate
  have h1 := Inv_checkEmergencyStop s i.pinPressed h
  cases hs : i.serial with
  | none => simpa [hs] using h1
  | some c => simpa [hs] using Inv_handleCommand _ c i.pinPressed h1

/-- The safety invariant holds along every run of the loop. -/
theorem Inv_run (inputs : List LoopInput) :
    ∀ s : FwState, Firmware.Inv s → Firmware.Inv (Firmware.run s inputs) := by
  induction inputs with
  | nil => intro s h; exact h
  | cons i rest ih =>
    intro s h
    exact ih _ (Inv_loopStep s i h)

/-- While emergency stop holds (and the system is inactive, as the safety
invariant guarantees), a loop iteration never moves a motor or the
reported position. -/
theorem loopStep_frozen (s : FwState) (i : LoopInput)
    (hE : s.emergencyStop = true) (hA : s.systemActive = false) :
    (loopStep s i).1.motorX.pos = s.motorX.pos ∧
    (loopStep s i).1.motorY.pos = s.motorY.pos ∧
    (loopStep s i).1.motorZ.pos = s.motorZ.pos ∧
    (loopStep s i).1.currentPosition = s.currentPosition := by
  obtain ⟨pin, ser, tmr⟩ := i
  cases ser with
  | none =>
    simp [loopStep, checkEmergencyStop, hE, hA]
  | some c =>
    cases c <;> cases pin <;>
      simp [loopStep, checkEmergencyStop, handleCommand, handleMoveCommand,
        handleActivateCommand, handleDeactivateCommand,
        handleEmergencyStopCommand, handleHomeCommand, handleCalibrateCommand,
        handleResetEmergency, sendPositionUpdate, Motor.stop, hE, hA]

/-- While emergency stop holds, the only loop input that clears it is a
`RESET_EMERGENCY` line while the physical pin reads released. -/
theorem loopStep_estop_persists (s : FwState) (i : LoopInput)
    (hE : s.emergencyStop = true) :
    (loopStep s i).1.emergencyStop = false →
    i.serial = some SerialCmd.resetEmergency ∧ i.pinPressed = false := by
  obtain ⟨pin, ser, tmr⟩ := i
  intro hfin
  cases ser with
  | none =>
    exfalso
    simp [loopStep, checkEmergencyStop, hE] at hfin
  | some c =>
    cases c <;> cases pin <;>
      first
        | exact ⟨rfl, rfl⟩
        | (exfalso
           cases hq : s.systemActive <;>
           simp [loopStep, checkEmergencyStop, handleCommand,
             handleMoveCommand, handleActivateCommand,
             handleDeactivateCommand, handleEmergencyStopCommand,
             handleHomeCommand, handleCalibrateCommand, handleResetEmergency,
             sendPositionUpdate, hE, hq] at hfin)

/-- C2: entering emergency stop — by the `EMERGENCY_STOP` serial command
from any state, or by the hardware pin edge — sets `emergencyStop`,
clears `systemActive` and stops all motors (a stopped motor's `run` is a
no-op); while `emergencyStop` holds no loop iteration advances any motor
or the reported position; the flag can only be cleared by
`RESET_EMERGENCY` with the physical pin released, which then reports
`STATUS:READY`, while `RESET_EMERGENCY` with the pin still pressed
replies with an error and changes nothing. -/
theorem C2_emergency_stop_protocol :
    (∀ s : FwState,
        (handleEmergencyStopCommand s).1.emergencyStop = true ∧
        (handleEmergencyStopCommand s).1.systemActive = false ∧
        Motor.run (handleEmergencyStopCommand s).1.motorX
          = ((handleEmergencyStopCommand s).1.motorX, false) ∧
        Motor.run (handleEmergencyStopCommand s).1.motorY
          = ((handleEmergencyStopCommand s).1.motorY, false) ∧
        Motor.run (handleEmergencyStopCommand s).1.motorZ
          = ((handleEmergencyStopCommand s).1.motorZ, false) ∧
        (handleEmergencyStopCommand s).2
          = [Line.statusEmergency,
             Line.info ("Emergency stop activated via command")]) ∧
    (∀ s : FwState, s.emergencyStop = false →
        (checkEmergencyStop s true).1.emergencyStop = true ∧
        (checkEmergencyStop s true).1.systemActive = false ∧
        Motor.run (checkEmergencyStop s true).1.motorX
          = ((checkEmergencyStop s true).1.motorX, false) ∧
        Motor.run (checkEmergencyStop s true).1.motorY
          = ((checkEmergencyStop s true).1.motorY, false) ∧
        Motor.run (checkEmergencyStop s true).1.motorZ
          = ((checkEmergencyStop s true).1.motorZ, false)) ∧
    (∀ (s : FwState) (i : LoopInput), Firmware.Inv s → s.emergencyStop = true →
        (loopStep s i).1.motorX.pos = s.motorX.pos ∧
        (loopStep s i).1.motorY.pos = s.motorY.pos ∧
        (loopStep s i).1.motorZ.pos = s.motorZ.pos ∧
        (loopStep s i).1.currentPosition = s.currentPosition) ∧
    (∀ (s : FwState) (i : LoopInput), s.emergencyStop = true →
        (loopStep s i).1.emergencyStop = false →
        i.serial = some SerialCmd.resetEmergency ∧ i.pinPressed = false) ∧
    (∀ s : FwState,
        handleResetEmergency s false
          = ({ s with emergencyStop := false },
             [Line.statusReady, Line.info ("Emergency stop cleared")]) ∧
        handleResetEmergency s true
          = (s, [Line.err ("Release emergency stop button first")])) := by
  refine ⟨?_, ?_, ?_, ?_, ?_⟩
  · intro s
    exact ⟨rfl, rfl, Motor.run_stop s.motorX, Motor.run_stop s.motorY,
      Motor.run_stop s.motorZ, rfl⟩
  · intro s hE
    have hcond : (true && !s.emergencyStop) = true := by simp [hE]
    unfold checkEmergencyStop
    rw [if_pos hcond]
    exact ⟨rfl, rfl, Motor.run_stop s.motorX, Motor.run_stop s.motorY,
      Motor.run_stop s.motorZ⟩
  · intro s i hInv hE
    have hA : s.systemActive = false := by
      cases hSA : s.systemActive with
      | false => rfl
      | true => exact absurd hE (by rw [(hInv hSA).2]; simp)
    exact loopStep_frozen s i hE hA
  · intro s i hE hfin
    exact loopStep_estop_persists s i hE hfin
  · intro s
    exact ⟨rfl, rfl⟩

/-- Witness for C2: from a concrete emergency-stop state, a plain loop
iteration leaves the X motor in place, and a `RESET_EMERGENCY` iteration
with the pin released is (per the theorem) the only shape of input that
can clear the flag. -/
theorem C2_emergency_stop_protocol_witness :
    (loopStep estopState { pinPressed := false, serial := none, posTimerDue := false }).1.motorX.pos
        = estopState.motorX.pos ∧
    ((some SerialCmd.resetEmergency : Option SerialCmd) = some SerialCmd.resetEmergency ∧
      (false : Bool) = false) :=
  ⟨(C2_emergency_stop_protocol.2.2.1 estopState
      { pinPressed := false, serial := none, posTimerDue := false }
      (by decide) rfl).1,
   C2_emergency_stop_protocol.2.2.2.1 estopState
      { pinPressed := false, serial := some SerialCmd.resetEmergency, posTimerDue := false }
      rfl (by decide)⟩

/-- C3: along every run of the firmware loop from boot — any sequence of
serial commands and emergency-pin samples — `systemActive` implies
`isCalibrated` and not `emergencyStop`; and `ACTIVATE` transitions to
active exactly when calibrated with no emergency stop, otherwise replies
with an error and leaves the state unchanged. -/
theorem C3_systemActive_invariant :
    (∀ inputs : List LoopInput, Firmware.Inv (Firmware.run FwState.initial inputs)) ∧
    (∀ s : FwState,
      (s.isCalibrated = true → s.emergencyStop = false →
        handleActivateCommand s
          = ({ s with systemActive := true },
             [Line.statusActive, Line.info ("System activated")])) ∧
      (s.emergencyStop = true →
        handleActivateCommand s = (s, [Line.err ("Clear emergency stop first")])) ∧
      (s.emergencyStop = false → s.isCalibrated = false →
        handleActivateCommand s = (s, [Line.err ("Robot not calibrated")]))) := by
  constructor
  · intro inputs
    refine Inv_run inputs FwState.initial ?_
    intro h
    simp [FwState.initial] at h
  · intro s
    refine ⟨?_, ?_, ?_⟩
    · intro h1 h2
      simp [handleActivateCommand, h1, h2]
    · intro h1
      simp [handleActivateCommand, h1]
    · intro h1 h2
      simp [handleActivateCommand, h1, h2]

/-- Witness for C3: the empty run satisfies the invariant, and `ACTIVATE`
succeeds from the concrete calibrated ready state. -/
theorem C3_systemActive_invariant_witness :
    Firmware.Inv (Firmware.run FwState.initial []) ∧
    handleActivateCommand readyState
      = ({ readyState with systemActive := true },
         [Line.statusActive, Line.info ("System activated")]) :=
  ⟨C3_systemActive_invariant.1 [],
   (C3_systemActive_invariant.2 readyState).1 rfl rfl⟩

/-! ### WebSocket client: reconnect policy (C4) -/

/-- Closed form of the cascade of reconnect attempts under persistent
failure: starting at attempt counter `a`, the scheduled delays are
`delay * a, delay * (a+1), …` up to the maximum. -/
theorem failureCascade_formula :
    ∀ (fuel : ℕ) (c : WSClient.Client),
      c.maxReconnectAttempts - c.reconnectAttempts ≤ fuel →
      WSClient.failureCascade fuel c
        = (List.range' c.reconnectAttempts
            (c.maxReconnectAttempts - c.reconnectAttempts)).map
            (fun i => c.reconnectDelay * i) := by
  intro fuel
  induction fuel with
  | zero =>
    intro c hc
    have h0 : c.maxReconnectAttempts - c.reconnectAttempts = 0 := Nat.le_zero.mp hc
    rw [h0]
    rfl
  | succ fuel ih =>
    intro c hc
    by_cases hlt : c.reconnectAttempts < c.maxReconnectAttempts
    · have hstep : WSClient.handleClose c
          = some (c.reconnectDelay * c.reconnectAttempts,
              WSClient.connect
                { c with
                    isConnected := false
                    socketOpen := false
                    reconnectAttempts := c.reconnectAttempts + 1 }) := by
        simp [WSClient.handleClose, WSClient.handleDisconnection, hlt]
      have hrec : WSClient.failureCascade (fuel + 1) c
          = c.reconnectDelay * c.reconnectAttempts ::
            WSClient.failureCascade fuel
              (WSClient.connect
                { c with
                    isConnected := false
                    socketOpen := false
                    reconnectAttempts := c.reconnectAttempts + 1 }) := by
        simp [WSClient.failureCascade, hstep]
      rw [hrec, ih _ (by simp [WSClient.connect]; omega)]
      have hsplit : c.maxReconnectAttempts - c.reconnectAttempts
          = (c.maxReconnectAttempts - (c.reconnectAttempts + 1)) + 1 := by omega
      rw [hsplit, List.range'_succ]
      simp [WSClient.connect]
    · have hnone : WSClient.handleClose c = none := by
        simp [WSClient.handleClose, WSClient.handleDisconnection, hlt]
      have h0 : c.maxReconnectAttempts - c.reconnectAttempts = 0 := by omega
      rw [h0]
      simp [WSClient.failureCascade, hnone]

/-- C4 (amended): under persistent connection failure the client makes
exactly `maxReconnectAttempts` reconnect attempts; the delay scheduled
before the nth attempt (1-indexed) is `reconnectDelay * (n - 1)` — the
first retry is immediate — because `handleDisconnection` multiplies by the
counter before incrementing it; no attempt is scheduled once the counter
reaches the maximum; and a successful open resets the counter to 0. -/
theorem C4_reconnect_policy (c : WSClient.Client) (h0 : c.reconnectAttempts = 0)
    (fuel : ℕ) (hfuel : c.maxReconnectAttempts ≤ fuel) :
    WSClient.failureCascade fuel c
      = (List.range c.maxReconnectAttempts).map (fun i => c.reconnectDelay * i) ∧
    (WSClient.failureCascade fuel c).length = c.maxReconnectAttempts ∧
    (∀ c2 : WSClient.Client, c2.maxReconnectAttempts ≤ c2.reconnectAttempts →
        WSClient.handleDisconnection c2 = none) ∧
    (∀ c2 : WSClient.Client, (WSClient.handleOpen c2).reconnectAttempts = 0) := by
  have hform := failureCascade_formula fuel c (by omega)
  rw [h0, Nat.sub_zero] at hform
  refine ⟨?_, ?_, ?_, ?_⟩
  · rw [hform, List.range_eq_range']
  · rw [hform]
    simp [List.length_range']
  · intro c2 hc2
    simp [WSClient.handleDisconnection, Nat.not_lt.mpr hc2]
  · intro c2
    simp [WSClient.handleOpen, WSClient.processMessageQueue]

/-- C4 counterexample: with the constructor configuration
(`reconnectDelay = 1000`, `maxReconnectAttempts = 5`), the delay scheduled
before the first reconnect attempt is `1000 * 0 = 0`, not
`baseDelay × 1 = 1000` as the claim states. -/
theorem C4_counterexample :
    (WSClient.failureCascade 5 WSClient.Client.initial).getD 0 0 = 0 ∧
    WSClient.Client.initial.reconnectDelay * 1 = 1000 ∧
    (0 : ℕ) ≠ 1000 := by
  refine ⟨rfl, rfl, by decide⟩

/-- Witness for the amended C4 at the constructor configuration. -/
theorem C4_reconnect_policy_witness :
    WSClient.failureCascade 5 WSClient.Client.initial
      = (List.range WSClient.Client.initial.maxReconnectAttempts).map
          (fun i => WSClient.Client.initial.reconnectDelay * i) ∧
    (WSClient.failureCascade 5 WSClient.Client.initial).length
      = WSClient.Client.initial.maxReconnectAttempts :=
  ⟨(C4_reconnect_policy WSClient.Client.initial rfl 5 (by decide)).1,
   (C4_reconnect_policy WSClient.Client.initial rfl 5 (by decide)).2.1⟩

/-! ### WebSocket client: message queue (C7) -/

/-- The `shift`-and-send loop of `processMessageQueue` transmits exactly
the queue, in order, appended to what was already sent. -/
theorem drainQueue_spec :
    ∀ (q sent : List WSClient.Msg), WSClient.drainQueue sent q = sent ++ q := by
  intro q
  induction q with
  | nil => intro sent; simp [WSClient.drainQueue]
  | cons m rest ih =>
    intro sent
    rw [WSClient.drainQueue, ih]
    simp

/-- Submitting messages while disconnected only appends them, in order, to
the message queue. -/
theorem sendAll_disconnected :
    ∀ (msgs : List WSClient.Msg) (c : WSClient.Client), c.isConnected = false →
      (WSClient.sendAll c msgs).messageQueue = c.messageQueue ++ msgs ∧
      (WSClient.sendAll c msgs).sentFrames = c.sentFrames ∧
      (WSClient.sendAll c msgs).isConnected = false := by
  intro msgs
  induction msgs with
  | nil => intro c h; simpa [WSClient.sendAll] using h
  | cons m rest ih =>
    intro c h
    have hsend : WSClient.send c m
        = { c with messageQueue := c.messageQueue ++ [m] } := by
      simp [WSClient.send, h]
    have ihr := ih { c with messageQueue := c.messageQueue ++ [m] } h
    rw [WSClient.sendAll, hsend]
    refine ⟨?_, ihr.2.1, ihr.2.2⟩
    rw [ihr.1]
    simp

/-- C7: every command submitted while the client is not connected is
appended to the message queue instead of failing; when the connection
opens, the whole queue is flushed to the socket in FIFO (submission)
order, verbatim — no reordering, no duplication, ids untouched — leaving
the queue empty. -/
theorem C7_queue_flushed_fifo (c : WSClient.Client) (msgs : List WSClient.Msg)
    (h : c.isConnected = false) :
    (WSClient.sendAll c msgs).messageQueue = c.messageQueue ++ msgs ∧
    (WSClient.sendAll c msgs).sentFrames = c.sentFrames ∧
    (WSClient.handleOpen (WSClient.sendAll c msgs)).sentFrames
      = c.sentFrames ++ (c.messageQueue ++ msgs) ∧
    (WSClient.handleOpen (WSClient.sendAll c msgs)).messageQueue = [] := by
  obtain ⟨hq, hs, _⟩ := sendAll_disconnected msgs c h
  refine ⟨hq, hs, ?_, ?_⟩
  · show (WSClient.processMessageQueue _).sentFrames = _
    simp only [WSClient.processMessageQueue]
    rw [drainQueue_spec]
    simp [hq, hs]
  · rfl

/-- Witness for C7: two messages queued while disconnected are flushed in
order on open. -/
theorem C7_queue_flushed_fifo_witness :
    (WSClient.handleOpen (WSClient.sendAll WSClient.Client.initial
        [{ id := "a", command := "move", payload := none, timestamp := 1 },
         { id := "b", command := "home", payload := none, timestamp := 2 }])).sentFrames
      = WSClient.Client.initial.sentFrames
        ++ (WSClient.Client.initial.messageQueue
            ++ [{ id := "a", command := "move", payload := none, timestamp := 1 },
                { id := "b", command := "home", payload := none, timestamp := 2 }]) :=
  (C7_queue_flushed_fifo WSClient.Client.initial
    [{ id := "a", command := "move", payload := none, timestamp := 1 },
     { id := "b", command := "home", payload := none, timestamp := 2 }] rfl).2.2.1

/-! ### WebSocket client: command timeout and settle-once (C5) -/

/-- A pending callback contributes to the pending count. -/
theorem hasCallback_countPending (c : WSClient.Client) (id : String)
    (h : WSClient.hasCallback c id = true) :
    1 ≤ WSClient.countPending c id := by
  rw [WSClient.hasCallback, List.any_eq_true] at h
  obtain ⟨e, he, hp⟩ := h
  exact List.length_pos.mpr
    (List.ne_nil_of_mem (List.mem_filter.mpr ⟨he, hp⟩))

/-- After filtering out an id, its pending count is zero. -/
theorem countPending_filter_self (l : List (String × ℕ)) (id : String) :
    ((l.filter (fun e => !(e.1 == id))).filter (fun e => e.1 == id)).length = 0 := by
  rw [List.filter_filter]
  have : (fun (e : String × ℕ) => e.1 == id && !(e.1 == id)) = fun _ => false := by
    funext e
    cases he : e.1 == id <;> simp [he]
  rw [this]
  simp

/-- One settling event preserves the settle-at-most-once budget for every
id. -/
theorem applyEvent_budget (c : WSClient.Client) (id : String) (e : WSClient.ChEvent)
    (h : WSClient.countPending c id + WSClient.countSettled c id ≤ 1) :
    WSClient.countPending (WSClient.applyEvent c e) id
      + WSClient.countSettled (WSClient.applyEvent c e) id ≤ 1 := by
  have main : ∀ (eid : String) (out : WSClient.Outcome),
      WSClient.countPending
          { c with
              callbacks := c.callbacks.filter (fun q => !(q.1 == eid))
              settled := c.settled ++ [(eid, out)] } id
        + WSClient.countSettled
          { c with
              callbacks := c.callbacks.filter (fun q => !(q.1 == eid))
              settled := c.settled ++ [(eid, out)] } id ≤ 1 ∨
      ¬ WSClient.hasCallback c eid = true := by
    intro eid out
    by_cases hcb : WSClient.hasCallback c eid = true
    · left
      by_cases hid : eid = id
      · subst hid
        have hp0 : WSClient.countPending
            { c with
                callbacks := c.callbacks.filter (fun q => !(q.1 == eid))
                settled := c.settled ++ [(eid, out)] } eid = 0 :=
          countPending_filter_self c.callbacks eid
        have hs1 : WSClient.countSettled
            { c with
                callbacks := c.callbacks.filter (fun q => !(q.1 == eid))
                settled := c.settled ++ [(eid, out)] } eid
            = WSClient.countSettled c eid + 1 := by
          simp [WSClient.countSettled, List.filter_append]
        have hp1 := hasCallback_countPending c eid hcb
        have hs0 : WSClient.countSettled c eid = 0 := by omega
        rw [hp0, hs1, hs0]
      · have hple : WSClient.countPending
            { c with
                callbacks := c.callbacks.filter (fun q => !(q.1 == eid))
                settled := c.settled ++ [(eid, out)] } id
            ≤ WSClient.countPending c id :=
          ((List.filter_sublist c.callbacks).filter _).length_le
        have hseq : WSClient.countSettled
            { c with
                callbacks := c.callbacks.filter (fun q => !(q.1 == eid))
                settled := c.settled ++ [(eid, out)] } id
            = WSClient.countSettled c id := by
          have hne : (eid == id) = false := by
            simp [hid]
          simp [WSClient.countSettled, List.filter_append, hne]
        rw [hseq]
        omega
    · right
      exact hcb
  cases e with
  | response eid success =>
    show WSClient.countPending (WSClient.handleResponse c eid success) id
        + WSClient.countSettled (WSClient.handleResponse c eid success) id ≤ 1
    unfold WSClient.handleResponse
    split
    · rcases main eid (if success then WSClient.Outcome.resolved
          else WSClient.Outcome.rejectedError) with hm | hm
      · exact hm
      · exact absurd (by assumption) hm
    · exact h
  | timerFire eid =>
    show WSClient.countPending (WSClient.fireTimeout c eid) id
        + WSClient.countSettled (WSClient.fireTimeout c eid) id ≤ 1
    unfold WSClient.fireTimeout
    split
    · rcases main eid WSClient.Outcome.rejectedTimeout with hm | hm
      · exact hm
      · exact absurd (by assumption) hm
    · exact h

/-- The settle-at-most-once budget is preserved by any event sequence. -/
theorem applyEvents_budget (id : String) :
    ∀ (events : List WSClient.ChEvent) (c : WSClient.Client),
      WSClient.countPending c id + WSClient.countSettled c id ≤ 1 →
      WSClient.countPending (WSClient.applyEvents c events) id
        + WSClient.countSettled (WSClient.applyEvents c events) id ≤ 1 := by
  intro events
  induction events with
  | nil => intro c h; exact h
  | cons e rest ih =>
    intro c h
    exact ih _ (applyEvent_budget c id e h)

/-- C5: the timeout is armed for creation time + 10 s when the command is
created — identically whether the frame is sent at once or queued — and
firing it while the id is still pending settles the promise as a timeout
rejection and deletes the callback entry; a response (or a second timer)
for an id with no callback entry is silently dropped; and across any
sequence of responses and timer firings each id settles at most once. -/
theorem C5_timeout_settles_once :
    WSClient.commandTimeoutMs = 10000 ∧
    (∀ (c : WSClient.Client) (cmd : String) (payload : Option Position)
        (id : String) (now : ℕ),
      (WSClient.sendCommand c cmd payload id now).callbacks
        = c.callbacks ++ [(id, now + WSClient.commandTimeoutMs)]) ∧
    (∀ (c : WSClient.Client) (id : String), WSClient.hasCallback c id = true →
      (WSClient.fireTimeout c id).settled
          = c.settled ++ [(id, WSClient.Outcome.rejectedTimeout)] ∧
      WSClient.hasCallback (WSClient.fireTimeout c id) id = false) ∧
    (∀ (c : WSClient.Client) (id : String) (success : Bool),
      WSClient.hasCallback c id = false →
      WSClient.handleResponse c id success = c ∧ WSClient.fireTimeout c id = c) ∧
    (∀ (c : WSClient.Client) (id : String) (events : List WSClient.ChEvent),
      WSClient.countPending c id + WSClient.countSettled c id ≤ 1 →
      WSClient.countPending (WSClient.applyEvents c events) id
        + WSClient.countSettled (WSClient.applyEvents c events) id ≤ 1) := by
  refine ⟨rfl, ?_, ?_, ?_, ?_⟩
  · intro c cmd payload id now
    unfold WSClient.sendCommand WSClient.send
    dsimp only
    split <;> rfl
  · intro c id h
    unfold WSClient.fireTimeout
    rw [if_pos h]
    refine ⟨rfl, ?_⟩
    simp [WSClient.hasCallback, List.any_eq_false, List.mem_filter]
  · intro c id success h
    constructor
    · simp [WSClient.handleResponse, h]
    · simp [WSClient.fireTimeout, h]
  · intro c id events h
    exact applyEvents_budget id events c h

/-- Witness for C5: a command created at t = 0 carries deadline 10000,
firing its timer settles it exactly once, and a response for an unknown
id is a no-op. -/
theorem C5_timeout_settles_once_witness :
    (WSClient.sendCommand WSClient.Client.initial ("get_status") none ("m1") 0).callbacks
      = WSClient.Client.initial.callbacks ++ [(("m1" : String), 0 + WSClient.commandTimeoutMs)] ∧
    (WSClient.fireTimeout
        (WSClient.sendCommand WSClient.Client.initial ("get_status") none ("m1") 0)
        ("m1")).settled
      = (WSClient.sendCommand WSClient.Client.initial ("get_status") none ("m1") 0).settled
        ++ [(("m1" : String), WSClient.Outcome.rejectedTimeout)] ∧
    WSClient.handleResponse WSClient.Client.initial ("late") true
      = WSClient.Client.initial :=
  ⟨C5_timeout_settles_once.2.1 WSClient.Client.initial ("get_status") none ("m1") 0,
   (C5_timeout_settles_once.2.2.1
      (WSClient.sendCommand WSClient.Client.initial ("get_status") none ("m1") 0)
      ("m1") (by decide)).1,
   (C5_timeout_settles_once.2.2.2.1 WSClient.Client.initial ("late") true (by decide)).1⟩

/-! ### WebSocket client: message ids (C8) -/

/-- Rendered digits are never the underscore separator. -/
theorem digitChar_ne_underscore (d : ℕ) : WSClient.digitChar d ≠ '_' := by
  rcases d with _ | _ | _ | _ | _ | _ | _ | _ | _ | _ | d <;>
    first
      | decide
      | (show ('*' : Char) ≠ '_'; decide)

/-- `charToDigit` inverts `digitChar` on decimal digits. -/
theorem charToDigit_digitChar (d : ℕ) (h : d < 10) :
    WSClient.charToDigit (WSClient.digitChar d) = d := by
  rcases d with _ | _ | _ | _ | _ | _ | _ | _ | _ | _ | d
  · rfl
  · rfl
  · rfl
  · rfl
  · rfl
  · rfl
  · rfl
  · rfl
  · rfl
  · rfl
  · omega

/-- Every entry of `digitsLE` is a decimal digit. -/
theorem digitsLE_lt :
    ∀ (fuel n d : ℕ), d ∈ WSClient.digitsLE fuel n → d < 10 := by
  intro fuel
  induction fuel with
  | zero =>
    intro n d h
    simp [WSClient.digitsLE] at h
  | succ fuel ih =>
    intro n d h
    rw [WSClient.digitsLE] at h
    split at h
    · simp at h
    · rcases List.mem_cons.mp h with h1 | h2
      · subst h1
        exact Nat.mod_lt _ (by omega)
      · exact ih _ _ h2

/-- `valLE` recovers the number from its digits (fuel-sufficient case). -/
theorem valLE_digitsLE :
    ∀ (fuel n : ℕ), n ≤ fuel → WSClient.valLE (WSClient.digitsLE fuel n) = n := by
  intro fuel
  induction fuel with
  | zero =>
    intro n hn
    have h0 : n = 0 := Nat.le_zero.mp hn
    subst h0
    rfl
  | succ fuel ih =>
    intro n hn
    rw [WSClient.digitsLE]
    split
    · subst (by assumption : n = 0)
      rfl
    · have hpos : 0 < n := Nat.pos_of_ne_zero (by assumption)
      have hdiv : n / 10 ≤ fuel := by
        have h10 : n / 10 < n := Nat.div_lt_self hpos (by norm_num)
        omega
      rw [WSClient.valLE, ih _ hdiv]
      exact Nat.mod_add_div n 10

/-- The decimal rendering never contains an underscore. -/
theorem natChars_no_underscore (n : ℕ) : '_' ∉ WSClient.natChars n := by
  unfold WSClient.natChars
  split
  · simp
  · intro h
    rcases List.mem_map.mp h with ⟨d, _, hd⟩
    exact digitChar_ne_underscore d hd

/-- Mapping `charToDigit` over a rendered digit string recovers the
digit list. -/
theorem map_charToDigit_digits (fuel n : ℕ) :
    ((WSClient.digitsLE fuel n).reverse.map WSClient.digitChar).map WSClient.charToDigit
      = (WSClient.digitsLE fuel n).reverse := by
  rw [List.map_map]
  have h : ∀ d ∈ (WSClient.digitsLE fuel n).reverse,
      (WSClient.charToDigit ∘ WSClient.digitChar) d = id d := by
    intro d hd
    exact charToDigit_digitChar d (digitsLE_lt fuel n d (List.mem_reverse.mp hd))
  rw [List.map_congr_left h, List.map_id]

/-- The decimal rendering of naturals is injective. -/
theorem natChars_injective (m n : ℕ) (h : WSClient.natChars m = WSClient.natChars n) :
    m = n := by
  by_cases hm : m = 0 <;> by_cases hn : n = 0
  · rw [hm, hn]
  · exfalso
    rw [WSClient.natChars, WSClient.natChars, if_pos hm, if_neg hn] at h
    have h2 := congrArg (List.map WSClient.charToDigit) h
    rw [map_charToDigit_digits] at h2
    have h3 : WSClient.digitsLE n n = [0] := by
      have := congrArg List.reverse h2
      simpa using this.symm
    have h4 := valLE_digitsLE n n le_rfl
    rw [h3] at h4
    simp [WSClient.valLE] at h4
    exact hn h4.symm
  · exfalso
    rw [WSClient.natChars, WSClient.natChars, if_neg hm, if_pos hn] at h
    have h2 := congrArg (List.map WSClient.charToDigit) h
    rw [map_charToDigit_digits] at h2
    have h3 : WSClient.digitsLE m m = [0] := by
      have := congrArg List.reverse h2
      simpa using this
    have h4 := valLE_digitsLE m m le_rfl
    rw [h3] at h4
    simp [WSClient.valLE] at h4
    exact hm h4.symm
  · rw [WSClient.natChars, WSClient.natChars, if_neg hm, if_neg hn] at h
    have h2 := congrArg (List.map WSClient.charToDigit) h
    rw [map_charToDigit_digits, map_charToDigit_digits] at h2
    have h3 := congrArg List.reverse h2
    simp only [List.reverse_reverse] at h3
    have h4 := valLE_digitsLE m m le_rfl
    rw [h3, valLE_digitsLE n n le_rfl] at h4
    exact h4.symm

/-- Splitting at the first underscore separator is unambiguous when the
left parts are underscore-free. -/
theorem underscore_split :
    ∀ (as bs cs ds : List Char), '_' ∉ as → '_' ∉ bs →
      as ++ '_' :: cs = bs ++ '_' :: ds → as = bs ∧ cs = ds := by
  intro as
  induction as with
  | nil =>
    intro bs cs ds ha hb h
    cases bs with
    | nil => simpa using h
    | cons b bs1 =>
      exfalso
      simp only [List.nil_append, List.cons_append, List.cons.injEq] at h
      exact hb (by rw [← h.1]; exact List.mem_cons_self _ _)
  | cons a as1 ih =>
    intro bs cs ds ha hb h
    cases bs with
    | nil =>
      exfalso
      simp only [List.nil_append, List.cons_append, List.cons.injEq] at h
      exact ha (by rw [h.1]; exact List.mem_cons_self _ _)
    | cons b bs1 =>
      simp only [List.cons_append, List.cons.injEq] at h
      obtain ⟨h1, h2⟩ := h
      have hr := ih bs1 cs ds
        (fun hm => ha (List.mem_cons_of_mem a hm))
        (fun hm => hb (List.mem_cons_of_mem b hm)) h2
      exact ⟨by rw [h1, hr.1], hr.2⟩

/-- `generateMessageId` is injective in the (timestamp, suffix) pair. -/
theorem generateMessageId_inj (t t2 : ℕ) (r r2 : String)
    (h : WSClient.generateMessageId t r = WSClient.generateMessageId t2 r2) :
    t = t2 ∧ r = r2 := by
  have hd : (WSClient.generateMessageId t r).data
      = (WSClient.generateMessageId t2 r2).data := by rw [h]
  simp only [WSClient.generateMessageId] at hd
  have hd2 : WSClient.natChars t ++ '_' :: r.data
      = WSClient.natChars t2 ++ '_' :: r2.data := by
    simpa using hd
  have hs := underscore_split (WSClient.natChars t) (WSClient.natChars t2)
    r.data r2.data (natChars_no_underscore t) (natChars_no_underscore t2) hd2
  refine ⟨natChars_injective t t2 hs.1, ?_⟩
  cases r
  cases r2
  exact congrArg String.mk hs.2

/-- C8 (amended): message ids are distinct across any two distinct calls
*provided the observed `Date.now()` values are distinct* (e.g. a strictly
monotonic millisecond clock); in particular no two pending callback
entries registered under such a clock share an id.  (The unamended claim
fails: see the counterexample.) -/
theorem C8_ids_distinct_under_monotonic_clock (oracle : ℕ → ℕ × String)
    (hclock : ∀ i j : ℕ, i < j → (oracle i).1 < (oracle j).1) :
    ∀ i j : ℕ, i ≠ j → WSClient.callId oracle i ≠ WSClient.callId oracle j := by
  intro i j hij heq
  have hts := (generateMessageId_inj _ _ _ _ heq).1
  rcases Nat.lt_or_ge i j with hlt | hge
  · exact absurd hts (Nat.ne_of_lt (hclock i j hlt))
  · have hgt : j < i := by omega
    exact absurd hts.symm (Nat.ne_of_lt (hclock j i hgt))

/-- C8 counterexample: two distinct `sendCommand` calls that observe the
same `Date.now()` millisecond and the same `Math.random` suffix — which
nothing in the code prevents — produce the *same* id. -/
theorem C8_counterexample :
    (0 : ℕ) ≠ 1 ∧
    WSClient.callId (fun _ => (17, "k2j9x1a4z")) 0
      = WSClient.callId (fun _ => (17, "k2j9x1a4z")) 1 :=
  ⟨by decide, rfl⟩

/-- Witness for the amended C8: with the identity clock, calls 0 and 1 get
different ids. -/
theorem C8_ids_distinct_under_monotonic_clock_witness :
    WSClient.callId (fun i => (i, "suffix")) 0
      ≠ WSClient.callId (fun i => (i, "suffix")) 1 :=
  C8_ids_distinct_under_monotonic_clock (fun i => (i, "suffix"))
    (fun _ _ h => h) 0 1 (by decide)

end CableRobot
